import Mathlib

/-!
elasticwatch: policy evaluation, handler fan-out and configuration checks

A shallow embedding of `policy.go`, `notifier.go` and `main.go`.

* Go maps with string keys are association lists read by first match
  (`GoMap.get`); a Go map is such a list with pairwise distinct keys, and
  every result below holds for all lists.
* Everything the program obtains from outside (the search backend, the clock,
  process execution, HTTP) is supplied per loop iteration by a `Tick`.
* Side effects are recorded as a list of `Event`s in program order.
* A Go run-time panic is `Except.error`.
-/

namespace Elasticwatch

/-! ## Library functions taken as parameters -/

/-- Functions of the Go standard library that the program calls and whose
values are left uninterpreted: `sha256.Sum256` (digest bytes) and the `%q`
verb of `fmt.Sprintf` (`strconv.Quote`). -/
structure Lib where
  Sum256 : String → List Nat
  Quote : String → String

/-- The constant `elastic.DefaultURL` of `gopkg.in/olivere/elastic.v3`. -/
def DefaultURL : String := "http://127.0.0.1:9200"

/-! ## Go maps -/

/-- A Go `map[string]V`. -/
abbrev GoMap (V : Type) := List (String × V)

/-- The two-valued read `v, ok := m[k]`. -/
def GoMap.get {V : Type} (m : GoMap V) (k : String) : Option V :=
  List.lookup k m

/-- The assignment `m[k] = v`. -/
def GoMap.set {V : Type} (m : GoMap V) (k : String) (v : V) : GoMap V :=
  (k, v) :: m.filter (fun e => e.1 != k)

/-! ## notifier.go -/

/-- The three implementations of the `handler` interface. -/
inductive handler where
  | pagerduty (apikey : String)
  | shell (command : String)
  | hipChat (apikey : String) (endpoint : String) (room : String) (from_ : String)
  deriving DecidableEq, Repr

/-- What the outside world answers to one `handle` call: the error of
`cmd.Run()`, the error of `http.NewRequest`, and the transport error or
response status code of `http.DefaultClient.Do`. -/
structure Outcome where
  run : Option String
  newRequest : Option String
  roundTrip : Except String Int

/-- The side effect a `handle` call performs. -/
inductive Effect where
  | exec (command : String) (args : List String)
  | printed (line : String)
  | post (url : String) (body : String)
  | nothing
  deriving DecidableEq, Repr

/-- The method `handle(status, id, msg)` of the three handler kinds; returns
the effect performed and the error returned (`none` is Go's `nil`). -/
def handler.handle (L : Lib) (o : Outcome) :
    handler → String → String → String → Effect × Option String
  | .shell command, status, id, msg =>
      (.exec command [status, id, msg], o.run)
  | .pagerduty _, status, id, msg =>
      (.printed ("pagerduty type=" ++ status ++ " id=" ++ id ++ " " ++ msg ++ "\n"), none)
  | .hipChat apikey endpoint room _, status, id, msg =>
      let url := endpoint ++ "/v2/room/" ++ room ++ "/notification?auth_token=" ++ apikey
      let body := "elasticwatch status=" ++ status ++ " policy=" ++ L.Quote msg ++ " id=" ++ id
      match o.newRequest with
      | some e => (.nothing, some e)
      | none =>
        match o.roundTrip with
        | .error e => (.post url body, some e)
        | .ok code =>
          if code ≠ 200 ∧ code ≠ 204 then
            (.post url body,
              some ("expected response code 200 or 204, received " ++ toString code))
          else (.post url body, none)

/-- The factory `newHandler(name, config)`. -/
def newHandler (name : String) (config : GoMap String) : Except String handler :=
  if name = "pagerduty" then
    match config.get "apikey" with
    | none => .error "apikey must be defined"
    | some apikey => .ok (.pagerduty apikey)
  else if name = "shell" then
    match config.get "command" with
    | none => .error "command must be defined"
    | some command => .ok (.shell command)
  else if name = "hipchat" then
    match config.get "apikey" with
    | none => .error "apikey must be defined"
    | some apikey =>
      match config.get "room" with
      | none => .error "room must be defined"
      | some room =>
        let endpoint := match config.get "endpoint" with
          | some e => e
          | none => "https://api.hipchat.com/"
        .ok (.hipChat apikey endpoint room "")
  else .error ("unknown handler type " ++ name)

/-! ## policy.go: data -/

/-- The constant `defaultIndex`. -/
def defaultIndex : String := "_all"

/-- The struct `Policy`; times are nanoseconds, the zero `time.Time` is `0`,
and `err = none` is Go's `nil` error. The counts are only ever compared, so
the `int64` fields are integers without a bound. -/
structure Policy where
  Name : String
  Query : String
  Index : String
  MinCount : Int
  MaxCount : Int
  FrequencySeconds : Int
  Handlers : List String
  triggered : Bool
  triggeredAt : Int
  lastRan : Int
  violationID : String
  err : Option String

/-- The struct `config`. -/
structure config where
  Address : String
  ESURL : String
  Policies : List Policy
  Handlers : GoMap (GoMap String)

/-- The search client, known by the URL it was created for. -/
structure Client where
  url : String

/-- The struct `controller` (its logger is the event trace). -/
structure controller where
  client : Client
  config : config
  handlers : GoMap handler

/-- The result of a count search: `TotalHits()` and `TookInMillis`. -/
structure SearchResult where
  TotalHits : Int
  TookInMillis : Int

/-- What the outside world supplies during one iteration of the worker loop:
the answer of the search, the four clock readings (`lastRan`, the
`UnixNano` inside `generateID`, `triggeredAt`, `time.Since`), and the
outcome of the k-th handler call of the iteration. -/
structure Tick where
  search : Except String SearchResult
  nowRan : Int
  nowID : Int
  nowTrig : Int
  nowSince : Int
  out : Nat → Outcome

/-- Observable effects, in program order: a `c.logf` line (by its `event=`
tag), an entry into `Policy.runHandlers` with the status and the policy's
`violationID` at that moment, and one call of a handler's `handle`. -/
inductive Event where
  | logf (event : String)
  | fanout (status : String) (id : String)
  | handle (name : String) (status : String) (id : String) (msg : String)
      (eff : Effect) (err : Option String)
  deriving DecidableEq, Repr

/-! ## policy.go: operations -/

/-- The function `hex.EncodeToString` on a list of bytes. -/
def EncodeToString (bs : List Nat) : String :=
  String.mk (bs.flatMap fun b => [Nat.digitChar (b / 16 % 16), Nat.digitChar (b % 16)])

/-- The method `Policy.generateID`, at clock reading `unixNano`. -/
def Policy.generateID (L : Lib) (unixNano : Int) (p : Policy) : String :=
  EncodeToString ((L.Sum256 (toString unixNano ++ p.Name)).take 6)

/-- The loop of `Policy.runHandlers` over the remaining handler names, `k`
being the number of handlers already called. Calling `handle` on the nil
interface that a missing map key yields panics. -/
def runHandlersFrom (L : Lib) (c : controller) (out : Nat → Outcome) (p : Policy)
    (status : String) : List String → Nat → Except String (List Event)
  | [], _ => .ok []
  | h :: rest, k =>
    match c.handlers.get h with
    | none => .error "panic: nil handler"
    | some hd =>
      let r := hd.handle L (out k) status p.violationID p.Name
      match runHandlersFrom L c out p status rest (k + 1) with
      | .error e => .error e
      | .ok evs =>
        .ok (Event.logf "trigger_handler"
          :: Event.handle h status p.violationID p.Name r.1 r.2
          :: ((match r.2 with
                | some _ => [Event.logf "handler_error"]
                | none => []) ++ evs))

/-- The method `Policy.runHandlers(c, status)`. -/
def Policy.runHandlers (L : Lib) (c : controller) (out : Nat → Outcome) (p : Policy)
    (status : String) : Except String (List Event) :=
  match runHandlersFrom L c out p status p.Handlers 0 with
  | .error e => .error e
  | .ok evs => .ok (Event.fanout status p.violationID :: evs)

/-- The condition of line 94,
`count < p.MinCount || (count > p.MaxCount && p.MaxCount != -1)`. -/
def Policy.violated (p : Policy) (count : Int) : Bool :=
  decide (count < p.MinCount) || (decide (count > p.MaxCount) && p.MaxCount != -1)

/-- One iteration of the `for` loop of `controller.policyWorker`. -/
def cycle (L : Lib) (c : controller) (t : Tick) (p : Policy) :
    Except String (Policy × List Event) :=
  let p := { p with lastRan := t.nowRan }
  match t.search with
  | .error e =>
    .ok ({ p with err := some e }, [Event.logf "query_start", Event.logf "es_query"])
  | .ok searchResult =>
    let p := { p with err := none }
    let count := searchResult.TotalHits
    if p.violated count then
      if p.triggered then
        .ok (p, [Event.logf "query_start", Event.logf "es_query", Event.logf "violation",
          Event.logf "violation_extended"])
      else
        let p := { p with violationID := p.generateID L t.nowID }
        let p := { p with triggered := true }
        let p := { p with triggeredAt := t.nowTrig }
        match p.runHandlers L c t.out "violation" with
        | .error e => .error e
        | .ok evs =>
          .ok (p, [Event.logf "query_start", Event.logf "es_query", Event.logf "violation"]
            ++ evs)
    else
      if p.triggered then
        let p := { p with triggered := false }
        match p.runHandlers L c t.out "resolved" with
        | .error e => .error e
        | .ok evs =>
          .ok (p, [Event.logf "query_start", Event.logf "es_query", Event.logf "resolved"]
            ++ evs)
      else
        .ok (p, [Event.logf "query_start", Event.logf "es_query", Event.logf "policy_ok"])

/-- Two's-complement wrap-around of a 64-bit signed product. -/
def wrap64 (x : Int) : Int := (x + 2 ^ 63) % 2 ^ 64 - 2 ^ 63

/-- The constant `time.Second`, in nanoseconds. -/
def Second : Int := 1000000000

/-- The function `time.NewTicker(d)`: it panics unless `d` is positive. -/
def NewTicker (d : Int) : Except String Int :=
  if d ≤ 0 then .error "panic: non-positive interval for NewTicker" else .ok d

/-- The part of `controller.policyWorker` before its loop: the two defaults
and the ticker. -/
def policyWorkerStart (p : Policy) : Except String (Policy × List Event) :=
  let r1 : Policy × List Event :=
    if p.MaxCount = 0 ∧ p.MinCount > 0 then
      ({ p with MaxCount := -1 }, [Event.logf "set_default"])
    else (p, [])
  let r2 : Policy × List Event :=
    if r1.1.Index = "" then
      ({ r1.1 with Index := defaultIndex }, r1.2 ++ [Event.logf "set_default"])
    else r1
  match NewTicker (wrap64 (r2.1.FrequencySeconds * Second)) with
  | .error e => .error e
  | .ok _ => .ok (r2.1, r2.2 ++ [Event.logf "start_worker"])

/-- The first `ticks.length` iterations of the loop of `policyWorker`:
the policy after the last one, and after each iteration the policy and the
events of that iteration. -/
def runCycles (L : Lib) (c : controller) :
    List Tick → Policy → Except String (Policy × List (Policy × List Event))
  | [], p => .ok (p, [])
  | t :: ts, p =>
    match cycle L c t p with
    | .error e => .error e
    | .ok r =>
      match runCycles L c ts r.1 with
      | .error e => .error e
      | .ok (q, rest) => .ok (q, r :: rest)

/-- The method `controller.policyWorker`, observed for `ticks.length`
iterations. -/
def policyWorker (L : Lib) (c : controller) (ticks : List Tick) (p : Policy) :
    Except String (Policy × List (Policy × List Event)) :=
  match policyWorkerStart p with
  | .error e => .error e
  | .ok r => runCycles L c ticks r.1

/-! ## main.go -/

/-- The handler check of one policy in `validateConfig`. -/
def checkDefined {V : Type} (m : GoMap V) (policyName : String) :
    List String → Except String Unit
  | [] => .ok ()
  | h :: hs =>
    match m.get h with
    | none =>
      .error ("Policy " ++ policyName ++ " specified a handler " ++ h
        ++ " but it wasn't defined")
    | some _ => checkDefined m policyName hs

/-- The loop over `cfg.Policies` in `validateConfig`. -/
def validatePolicies (handlers : GoMap (GoMap String)) : List Policy → Except String Unit
  | [] => .ok ()
  | policy :: rest =>
    if policy.FrequencySeconds = 0 then
      .error ("Policy " ++ policy.Name ++ " polling frequency needs to be set")
    else
      match checkDefined handlers policy.Name policy.Handlers with
      | .error e => .error e
      | .ok _ => validatePolicies handlers rest

/-- The function `validateConfig`, given what `decoder.Decode` produced. -/
def validateConfig (decoded : Except String config) : Except String config :=
  match decoded with
  | .error e => .error e
  | .ok cfg =>
    match validatePolicies cfg.Handlers cfg.Policies with
    | .error e => .error e
    | .ok _ => .ok (if cfg.ESURL = "" then { cfg with ESURL := DefaultURL } else cfg)

/-- The loop of `newController` that fills `c.handlers`. Go visits the keys
of `cfg.Handlers` in an unspecified order; the order of the list stands for
the order of one run. -/
def buildHandlers : GoMap (GoMap String) → GoMap handler → Except String (GoMap handler)
  | [], acc => .ok acc
  | (name, settings) :: rest, acc =>
    match newHandler name settings with
    | .error e => .error e
    | .ok n => buildHandlers rest (acc.set name n)

/-- The loop of `newController` over `cfg.Policies`. -/
def checkPolicies (handlers : GoMap handler) : List Policy → Except String Unit
  | [] => .ok ()
  | policy :: rest =>
    match checkDefined handlers policy.Name policy.Handlers with
    | .error e => .error e
    | .ok _ => checkPolicies handlers rest

/-- The function `newController`, given `elastic.NewClient`; the workers it
starts are `policyWorker` on each policy of the configuration. -/
def newController (NewClient : String → Except String Client) (cfg : config) :
    Except String controller :=
  match NewClient cfg.ESURL with
  | .error e => .error e
  | .ok client =>
    match buildHandlers cfg.Handlers [] with
    | .error e => .error e
    | .ok handlers =>
      match checkPolicies handlers cfg.Policies with
      | .error e => .error e
      | .ok _ => .ok { client := client, config := cfg, handlers := handlers }

/-- The function `testConfig`. -/
def testConfig : config :=
  { Address := "127.0.0.1:8888"
    ESURL := "http://localhost:9200/"
    Handlers := [("stdout", []), ("pagerduty", [("apikey", "abcd1234")])]
    Policies := [
      { Name := "apache hits in last hour"
        Query := "_type:logs AND path:/var/log/apache2/access_log AND @timestamp:\x7bnow-1h TO now\x7d"
        Index := ""
        MinCount := 100
        MaxCount := -1
        FrequencySeconds := 300
        Handlers := ["pagerduty"]
        triggered := false
        triggeredAt := 0
        lastRan := 0
        violationID := ""
        err := none }] }

/-! ## Reading a trace -/

/-- The number of positions of a list of truth values at which the value
differs from the one before it, `prev` standing before the first. -/
def changes : Bool → List Bool → Nat
  | _, [] => 0
  | prev, b :: bs => (if b = prev then 0 else 1) + changes b bs


/-- The fan-outs of a trace: status and id of each entry into `runHandlers`. -/
def fanouts : List Event → List (String × String)
  | [] => []
  | Event.fanout status id :: evs => (status, id) :: fanouts evs
  | _ :: evs => fanouts evs

/-- The handler calls of a trace: handler name, status, id and message. -/
def calls : List Event → List (String × String × String × String)
  | [] => []
  | Event.handle name status id msg _ _ :: evs => (name, status, id, msg) :: calls evs
  | _ :: evs => calls evs

/-- Every handler name of the policy is a key of the controller's registry. -/
def registered (c : controller) (p : Policy) : Prop :=
  ∀ h ∈ p.Handlers, (c.handlers.get h).isSome = true

/-! ## Lemmas on traces and on the fan-out -/

@[simp] theorem fanouts_nil : fanouts [] = [] := rfl

@[simp] theorem fanouts_logf (s : String) (evs : List Event) :
    fanouts (Event.logf s :: evs) = fanouts evs := rfl

@[simp] theorem fanouts_fanout (s i : String) (evs : List Event) :
    fanouts (Event.fanout s i :: evs) = (s, i) :: fanouts evs := rfl

@[simp] theorem fanouts_handle (n s i m : String) (e : Effect) (r : Option String)
    (evs : List Event) : fanouts (Event.handle n s i m e r :: evs) = fanouts evs := rfl

@[simp] theorem calls_nil : calls [] = [] := rfl

@[simp] theorem calls_logf (s : String) (evs : List Event) :
    calls (Event.logf s :: evs) = calls evs := rfl

@[simp] theorem calls_fanout (s i : String) (evs : List Event) :
    calls (Event.fanout s i :: evs) = calls evs := rfl

@[simp] theorem calls_handle (n s i m : String) (e : Effect) (r : Option String)
    (evs : List Event) :
    calls (Event.handle n s i m e r :: evs) = (n, s, i, m) :: calls evs := rfl

theorem fanouts_append (xs ys : List Event) :
    fanouts (xs ++ ys) = fanouts xs ++ fanouts ys := by
  induction xs with
  | nil => rfl
  | cons x xs ih => cases x <;> simp [ih]

theorem calls_append (xs ys : List Event) :
    calls (xs ++ ys) = calls xs ++ calls ys := by
  induction xs with
  | nil => rfl
  | cons x xs ih => cases x <;> simp [ih]

/-- The loop of `runHandlers` over registered names ends normally, calls
each name once in list order with the same arguments, whatever the calls
answer, and enters no further fan-out. -/
theorem runHandlersFrom_ok (L : Lib) (c : controller) (out : Nat → Outcome) (p : Policy)
    (status : String) (hs : List String) (k : Nat)
    (hreg : ∀ h ∈ hs, (c.handlers.get h).isSome = true) :
    ∃ evs, runHandlersFrom L c out p status hs k = .ok evs ∧
      calls evs = hs.map (fun h => (h, status, p.violationID, p.Name)) ∧
      fanouts evs = [] := by
  induction hs generalizing k with
  | nil => exact ⟨[], rfl, rfl, rfl⟩
  | cons h rest ih =>
    have hh : (c.handlers.get h).isSome = true := hreg h (List.mem_cons_self _ _)
    obtain ⟨hd, hhd⟩ := Option.isSome_iff_exists.mp hh
    obtain ⟨evs, he, hc, hf⟩ := ih (k + 1) (fun x hx => hreg x (List.mem_cons_of_mem _ hx))
    simp only [runHandlersFrom, hhd, he]
    refine ⟨_, rfl, ?_, ?_⟩
    · cases hr : (hd.handle L (out k) status p.violationID p.Name).2 <;>
        simp [hc]
    · cases hr : (hd.handle L (out k) status p.violationID p.Name).2 <;>
        simp [hf]

/-- The method `runHandlers` on a registered policy: one fan-out, one call
per configured name, in order. -/
theorem runHandlers_ok (L : Lib) (c : controller) (out : Nat → Outcome) (p : Policy)
    (status : String) (hreg : registered c p) :
    ∃ evs, p.runHandlers L c out status = .ok evs ∧
      calls evs = p.Handlers.map (fun h => (h, status, p.violationID, p.Name)) ∧
      fanouts evs = [(status, p.violationID)] := by
  obtain ⟨evs, he, hc, hf⟩ := runHandlersFrom_ok L c out p status p.Handlers 0 hreg
  simp only [Policy.runHandlers, he]
  exact ⟨_, rfl, by simpa using hc, by simp [hf]⟩

theorem violated_iff (p : Policy) (count : Int) :
    p.violated count = true ↔
      (count < p.MinCount ∨ (p.MaxCount ≠ -1 ∧ count > p.MaxCount)) := by
  simp only [Policy.violated, Bool.or_eq_true, Bool.and_eq_true, decide_eq_true_eq,
    bne_iff_ne, ne_eq]
  tauto

theorem violated_false_iff (p : Policy) (count : Int) :
    p.violated count = false ↔
      (p.MinCount ≤ count ∧ (p.MaxCount = -1 ∨ count ≤ p.MaxCount)) := by
  rw [← Bool.not_eq_true, violated_iff]
  constructor
  · intro h
    push_neg at h
    refine ⟨h.1, ?_⟩
    by_cases hm : p.MaxCount = -1
    · exact Or.inl hm
    · exact Or.inr (h.2 hm)
  · rintro ⟨h1, h2⟩ h
    rcases h with h | ⟨h3, h4⟩
    · omega
    · rcases h2 with h2 | h2
      · exact h3 h2
      · omega

/-! ## The five outcomes of one iteration -/

theorem cycle_error (L : Lib) (c : controller) (t : Tick) (p : Policy) (e : String)
    (hs : t.search = .error e) :
    cycle L c t p = .ok ({ p with lastRan := t.nowRan, err := some e },
      [Event.logf "query_start", Event.logf "es_query"]) := by
  simp only [cycle, hs]

theorem cycle_extended (L : Lib) (c : controller) (t : Tick) (p : Policy)
    (sr : SearchResult) (hs : t.search = .ok sr) (ht : p.triggered = true)
    (hv : p.violated sr.TotalHits = true) :
    cycle L c t p = .ok ({ p with lastRan := t.nowRan, err := none },
      [Event.logf "query_start", Event.logf "es_query", Event.logf "violation",
        Event.logf "violation_extended"]) := by
  simp only [Policy.violated] at hv
  simp only [cycle, hs, Policy.violated, hv, ht, if_true]

theorem cycle_policy_ok (L : Lib) (c : controller) (t : Tick) (p : Policy)
    (sr : SearchResult) (hs : t.search = .ok sr) (ht : p.triggered = false)
    (hv : p.violated sr.TotalHits = false) :
    cycle L c t p = .ok ({ p with lastRan := t.nowRan, err := none },
      [Event.logf "query_start", Event.logf "es_query", Event.logf "policy_ok"]) := by
  simp only [Policy.violated] at hv
  simp only [cycle, hs, Policy.violated, hv, ht]
  simp

theorem cycle_violation (L : Lib) (c : controller) (t : Tick) (p : Policy)
    (sr : SearchResult) (hreg : registered c p) (hs : t.search = .ok sr)
    (ht : p.triggered = false) (hv : p.violated sr.TotalHits = true) :
    ∃ evs, cycle L c t p = .ok ({ p with
          lastRan := t.nowRan, err := none, violationID := p.generateID L t.nowID,
          triggered := true, triggeredAt := t.nowTrig }, evs) ∧
      fanouts evs = [("violation", p.generateID L t.nowID)] ∧
      calls evs = p.Handlers.map
        (fun h => (h, "violation", p.generateID L t.nowID, p.Name)) := by
  obtain ⟨evs, he, hc, hf⟩ := runHandlers_ok L c t.out
    { p with
      lastRan := t.nowRan, err := none, violationID := p.generateID L t.nowID,
      triggered := true, triggeredAt := t.nowTrig } "violation" hreg
  simp only [Policy.violated] at hv
  simp only [Policy.generateID] at he hc hf ⊢
  simp only [cycle, hs, Policy.violated, hv, ht, Policy.generateID, he]
  exact ⟨_, by simp; rfl, by simp [fanouts_append, hf], by simp [calls_append, hc]⟩

theorem cycle_resolved (L : Lib) (c : controller) (t : Tick) (p : Policy)
    (sr : SearchResult) (hreg : registered c p) (hs : t.search = .ok sr)
    (ht : p.triggered = true) (hv : p.violated sr.TotalHits = false) :
    ∃ evs, cycle L c t p = .ok ({ p with
          lastRan := t.nowRan, err := none, triggered := false }, evs) ∧
      fanouts evs = [("resolved", p.violationID)] ∧
      calls evs = p.Handlers.map (fun h => (h, "resolved", p.violationID, p.Name)) := by
  obtain ⟨evs, he, hc, hf⟩ := runHandlers_ok L c t.out
    { p with lastRan := t.nowRan, err := none, triggered := false } "resolved" hreg
  simp only [Policy.violated] at hv
  simp only [cycle, hs, Policy.violated, hv, ht, he]
  exact ⟨_, by simp; rfl, by simp [fanouts_append, hf], by simp [calls_append, hc]⟩

/-- A successful search on a registered policy: the iteration ends normally,
`triggered` becomes the value of the violation condition, a fan-out happens
exactly when that value differs from the old `triggered`, and the id and the
trigger time change only on a new violation. -/
theorem cycle_success (L : Lib) (c : controller) (t : Tick) (p : Policy)
    (sr : SearchResult) (hreg : registered c p) (hs : t.search = .ok sr) :
    ∃ q evs, cycle L c t p = .ok (q, evs) ∧
      q = { p with
        lastRan := t.nowRan, err := none, triggered := p.violated sr.TotalHits,
        violationID := if p.violated sr.TotalHits = true ∧ p.triggered = false
          then p.generateID L t.nowID else p.violationID,
        triggeredAt := if p.violated sr.TotalHits = true ∧ p.triggered = false
          then t.nowTrig else p.triggeredAt } ∧
      fanouts evs = (if p.violated sr.TotalHits = p.triggered then []
        else [(if p.violated sr.TotalHits = true then "violation" else "resolved",
          q.violationID)]) ∧
      calls evs = (if p.violated sr.TotalHits = p.triggered then []
        else p.Handlers.map (fun h =>
          (h, if p.violated sr.TotalHits = true then "violation" else "resolved",
            q.violationID, p.Name))) := by
  cases hv : p.violated sr.TotalHits <;> cases ht : p.triggered
  · refine ⟨_, _, cycle_policy_ok L c t p sr hs ht hv, ?_, ?_, ?_⟩
    · simp [ht]
    · simp
    · simp
  · obtain ⟨evs, he, hf, hc⟩ := cycle_resolved L c t p sr hreg hs ht hv
    refine ⟨_, evs, he, ?_, ?_, ?_⟩
    · simp
    · simp [hf]
    · simp [hc]
  · obtain ⟨evs, he, hf, hc⟩ := cycle_violation L c t p sr hreg hs ht hv
    refine ⟨_, evs, he, ?_, ?_, ?_⟩
    · simp
    · simp [hf]
    · simp [hc]
  · refine ⟨_, _, cycle_extended L c t p sr hs ht hv, ?_, ?_, ?_⟩
    · simp [ht]
    · simp
    · simp

/-- The policy an iteration leaves does not depend on what the handler calls
answer, and on a registered policy the iteration always ends normally. -/
theorem cycle_policy_indep (L : Lib) (c : controller) (t : Tick) (p : Policy)
    (hreg : registered c p) :
    ∃ q, ∀ out2 : Nat → Outcome, ∃ evs, cycle L c { t with out := out2 } p = .ok (q, evs) := by
  obtain ⟨search, nowRan, nowID, nowTrig, nowSince, out⟩ := t
  cases search with
  | error e =>
    exact ⟨{ p with lastRan := nowRan, err := some e },
      fun out2 => ⟨_, cycle_error L c _ p e rfl⟩⟩
  | ok sr =>
    refine ⟨{ p with
        lastRan := nowRan, err := none, triggered := p.violated sr.TotalHits,
        violationID := if p.violated sr.TotalHits = true ∧ p.triggered = false
          then p.generateID L nowID else p.violationID,
        triggeredAt := if p.violated sr.TotalHits = true ∧ p.triggered = false
          then nowTrig else p.triggeredAt }, fun out2 => ?_⟩
    obtain ⟨q, evs, he, hq, -, -⟩ := cycle_success L c
      { search := .ok sr, nowRan := nowRan, nowID := nowID, nowTrig := nowTrig,
        nowSince := nowSince, out := out2 } p sr hreg rfl
    exact ⟨evs, by rw [he, hq]⟩

/-! ## Runs of several iterations -/

theorem runCycles_cons_ok (L : Lib) (c : controller) (t : Tick) (ts : List Tick)
    (p p1 q : Policy) (ev1 : List Event) (rs : List (Policy × List Event))
    (h1 : cycle L c t p = .ok (p1, ev1)) (h2 : runCycles L c ts p1 = .ok (q, rs)) :
    runCycles L c (t :: ts) p = .ok (q, (p1, ev1) :: rs) := by
  simp only [runCycles, h1, h2]

theorem runCycles_append_ok (L : Lib) (c : controller) (xs ys : List Tick)
    (p q q2 : Policy) (rs rs2 : List (Policy × List Event))
    (h1 : runCycles L c xs p = .ok (q, rs)) (h2 : runCycles L c ys q = .ok (q2, rs2)) :
    runCycles L c (xs ++ ys) p = .ok (q2, rs ++ rs2) := by
  induction xs generalizing p rs with
  | nil =>
    simp only [runCycles, Except.ok.injEq, Prod.mk.injEq] at h1
    obtain ⟨rfl, rfl⟩ := h1
    simpa using h2
  | cons x xs ih =>
    cases hc : cycle L c x p with
    | error e => simp [runCycles, hc] at h1
    | ok r =>
      cases hr : runCycles L c xs r.1 with
      | error e => simp [runCycles, hc, hr] at h1
      | ok w =>
        obtain ⟨q1, rest⟩ := w
        simp only [runCycles, hc, hr, Except.ok.injEq, Prod.mk.injEq] at h1
        obtain ⟨rfl, rfl⟩ := h1
        exact runCycles_cons_ok L c x (xs ++ ys) p r.1 q2 r.2 (rest ++ rs2) hc
          (ih r.1 rest hr)

/-- A tick that cannot change the violation state of a triggered policy: the
search fails, or it succeeds with a count that still violates the bounds. -/
def quietTick (p : Policy) (t : Tick) : Prop :=
  (∃ e, t.search = .error e) ∨ ∃ sr, t.search = .ok sr ∧ p.violated sr.TotalHits = true

/-- While a triggered policy sees only failed searches and still-violating
counts, every iteration ends normally, changes nothing but `lastRan` and
`err`, and calls no handler. -/
theorem runCycles_quiet (L : Lib) (c : controller) (ts : List Tick) (p : Policy)
    (ht : p.triggered = true) (hts : ∀ t ∈ ts, quietTick p t) :
    ∃ q rs, runCycles L c ts p = .ok (q, rs) ∧ rs.length = ts.length ∧
      q = { p with lastRan := q.lastRan, err := q.err } ∧
      ∀ r ∈ rs, r.1 = { p with lastRan := r.1.lastRan, err := r.1.err } ∧
        calls r.2 = [] ∧ fanouts r.2 = [] := by
  induction ts generalizing p with
  | nil => exact ⟨p, [], rfl, rfl, rfl, by simp⟩
  | cons t ts ih =>
    have hq : ∃ p1 ev1, cycle L c t p = .ok (p1, ev1) ∧
        p1 = { p with lastRan := p1.lastRan, err := p1.err } ∧
        calls ev1 = [] ∧ fanouts ev1 = [] := by
      rcases hts t (List.mem_cons_self _ _) with ⟨e, he⟩ | ⟨sr, hs, hv⟩
      · exact ⟨_, _, cycle_error L c t p e he, rfl, rfl, rfl⟩
      · exact ⟨_, _, cycle_extended L c t p sr hs ht hv, rfl, rfl, rfl⟩
    obtain ⟨p1, ev1, h1, hp1, hc1, hf1⟩ := hq
    have ht1 : p1.triggered = true := by rw [hp1]; exact ht
    have hts1 : ∀ t ∈ ts, quietTick p1 t := by
      intro x hx
      have := hts x (List.mem_cons_of_mem _ hx)
      rw [hp1]
      exact this
    obtain ⟨q, rs, hr, hlen, hq, hall⟩ := ih p1 ht1 hts1
    refine ⟨q, (p1, ev1) :: rs, runCycles_cons_ok L c t ts p p1 q ev1 rs h1 hr, by simp [hlen],
      ?_, ?_⟩
    · rw [hq, hp1]
    · intro r hr
      rcases List.mem_cons.mp hr with rfl | hr
      · exact ⟨hp1, hc1, hf1⟩
      · obtain ⟨h1, h2, h3⟩ := hall r hr
        refine ⟨?_, h2, h3⟩
        rw [h1, hp1]

/-- On a registered policy an iteration always ends normally, and it leaves
a registered policy. -/
theorem cycle_total (L : Lib) (c : controller) (t : Tick) (p : Policy)
    (hreg : registered c p) :
    ∃ q evs, cycle L c t p = .ok (q, evs) ∧ registered c q := by
  cases hs : t.search with
  | error e => exact ⟨_, _, cycle_error L c t p e hs, hreg⟩
  | ok sr =>
    obtain ⟨q, evs, he, hq, -, -⟩ := cycle_success L c t p sr hreg hs
    exact ⟨q, evs, he, by rw [hq]; exact hreg⟩

theorem runCycles_total (L : Lib) (c : controller) (ts : List Tick) (p : Policy)
    (hreg : registered c p) :
    ∃ q rs, runCycles L c ts p = .ok (q, rs) := by
  induction ts generalizing p with
  | nil => exact ⟨p, [], rfl⟩
  | cons t ts ih =>
    obtain ⟨p1, ev1, h1, hreg1⟩ := cycle_total L c t p hreg
    obtain ⟨q, rs, hr⟩ := ih p1 hreg1
    exact ⟨q, _, runCycles_cons_ok L c t ts p p1 q ev1 rs h1 hr⟩

/-- Over successful searches, `triggered` follows the violation condition
and the fan-outs are counted by the changes of its value. -/
theorem runCycles_transitions (L : Lib) (c : controller) (ts : List Tick)
    (srs : List SearchResult) (p : Policy) (hreg : registered c p)
    (hts : ts.map (fun t => t.search) = srs.map (fun sr => Except.ok sr)) :
    ∃ q rs, runCycles L c ts p = .ok (q, rs) ∧
      rs.map (fun r => r.1.triggered) = srs.map (fun sr => p.violated sr.TotalHits) ∧
      (rs.map (fun r => (fanouts r.2).length)).sum
        = changes p.triggered (srs.map (fun sr => p.violated sr.TotalHits)) := by
  induction ts generalizing srs p with
  | nil =>
    cases srs with
    | nil => exact ⟨p, [], rfl, rfl, rfl⟩
    | cons sr srs => simp at hts
  | cons t ts ih =>
    cases srs with
    | nil => simp at hts
    | cons sr srs =>
      simp only [List.map_cons, List.cons.injEq] at hts
      obtain ⟨hs, hrest⟩ := hts
      obtain ⟨p1, ev1, h1, hp1, hf1, -⟩ := cycle_success L c t p sr hreg hs
      have hreg1 : registered c p1 := by rw [hp1]; exact hreg
      have hv1 : ∀ x, p1.violated x = p.violated x := by intro x; rw [hp1]; rfl
      have ht1 : p1.triggered = p.violated sr.TotalHits := by rw [hp1]
      obtain ⟨q, rs, hr, htr, hsum⟩ := ih srs p1 hreg1 hrest
      refine ⟨q, (p1, ev1) :: rs, runCycles_cons_ok L c t ts p p1 q ev1 rs h1 hr, ?_, ?_⟩
      · simp only [List.map_cons, htr, ht1, hv1]
      · simp only [List.map_cons, List.sum_cons, hsum, ht1, hv1, changes, hf1]
        congr 1
        by_cases hc : p.violated sr.TotalHits = p.triggered <;> simp [hc]

/-! ## The start of the worker -/

/-- When the start of the worker succeeds it has applied the two defaults
and changed nothing else. -/
theorem policyWorkerStart_ok (p0 p : Policy) (ev0 : List Event)
    (h : policyWorkerStart p0 = .ok (p, ev0)) :
    p = { p0 with
      MaxCount := if p0.MaxCount = 0 ∧ p0.MinCount > 0 then -1 else p0.MaxCount,
      Index := if p0.Index = "" then defaultIndex else p0.Index } := by
  unfold policyWorkerStart at h
  simp only [NewTicker] at h
  by_cases h1 : p0.MaxCount = 0 ∧ p0.MinCount > 0 <;> by_cases h2 : p0.Index = "" <;>
    by_cases h3 : wrap64 (p0.FrequencySeconds * Second) ≤ 0 <;>
    simp [h1, h2, h3] at h ⊢ <;>
    rw [← h.1]

/-! ## Sample data for the instances below -/

/-- A stand-in digest (32 zero bytes) and the identity for quoting. -/
def sampleLib : Lib :=
  { Sum256 := fun _ => List.replicate 32 0
    Quote := fun s => s }

/-- A controller whose registry holds a pagerduty and a shell handler. -/
def sampleController : controller :=
  { client := { url := "http://localhost:9200/" }
    config := testConfig
    handlers := [("pagerduty", handler.pagerduty "abcd1234"),
      ("shell", handler.shell "/bin/notify")] }

/-- A policy with the name, thresholds and handlers of the one in `testConfig`. -/
def samplePolicy : Policy :=
  { Name := "apache hits in last hour"
    Query := "_type:logs"
    Index := "_all"
    MinCount := 100
    MaxCount := -1
    FrequencySeconds := 300
    Handlers := ["pagerduty"]
    triggered := false
    triggeredAt := 0
    lastRan := 0
    violationID := ""
    err := none }

/-- Every handler call succeeds. -/
def allFine : Nat → Outcome :=
  fun _ => { run := none, newRequest := none, roundTrip := .ok 200 }

/-- A successful search that finds `n` documents, at clock reading `now`. -/
def hits (n : Int) (now : Int) : Tick :=
  { search := .ok { TotalHits := n, TookInMillis := 3 }
    nowRan := now
    nowID := now + 1
    nowTrig := now + 2
    nowSince := now + 3
    out := allFine }

/-- A failed search, at clock reading `now`. -/
def failed (e : String) (now : Int) : Tick :=
  { search := .error e
    nowRan := now
    nowID := now + 1
    nowTrig := now + 2
    nowSince := now + 3
    out := allFine }

theorem samplePolicy_registered (p : Policy) (hp : p.Handlers = ["pagerduty"]) :
    registered sampleController p := by
  intro h hh
  rw [hp] at hh
  simp only [List.mem_singleton] at hh
  subst hh
  rfl

/-! ## C1 -/

/-- C1: on a policy that is not triggered, a successful cycle whose count is
below `MinCount`, or above a `MaxCount` other than -1, performs exactly one
fan-out, with status "violation", calls each name of the handler list once,
sets `triggered`, stores the freshly generated id in `violationID`, and passes
that same id to every handler. -/
theorem new_violation_fans_out_once (L : Lib) (c : controller) (t : Tick) (p : Policy)
    (sr : SearchResult) (hreg : registered c p) (hnt : p.triggered = false)
    (hs : t.search = .ok sr)
    (hv : sr.TotalHits < p.MinCount ∨ (p.MaxCount ≠ -1 ∧ sr.TotalHits > p.MaxCount)) :
    ∃ q evs, cycle L c t p = .ok (q, evs) ∧
      fanouts evs = [("violation", p.generateID L t.nowID)] ∧
      calls evs = p.Handlers.map
        (fun h => (h, "violation", p.generateID L t.nowID, p.Name)) ∧
      q.triggered = true ∧ q.violationID = p.generateID L t.nowID := by
  obtain ⟨evs, he, hf, hc⟩ :=
    cycle_violation L c t p sr hreg hs hnt ((violated_iff p sr.TotalHits).mpr hv)
  exact ⟨_, evs, he, hf, hc, rfl, rfl⟩

theorem new_violation_fans_out_once_witness :
    ∃ q evs, cycle sampleLib sampleController (hits 50 1000) samplePolicy = .ok (q, evs) ∧
      fanouts evs = [("violation", samplePolicy.generateID sampleLib (hits 50 1000).nowID)] ∧
      calls evs = samplePolicy.Handlers.map
        (fun h => (h, "violation", samplePolicy.generateID sampleLib (hits 50 1000).nowID,
          samplePolicy.Name)) ∧
      q.triggered = true ∧
      q.violationID = samplePolicy.generateID sampleLib (hits 50 1000).nowID :=
  new_violation_fans_out_once sampleLib sampleController (hits 50 1000) samplePolicy
    { TotalHits := 50, TookInMillis := 3 } (samplePolicy_registered _ rfl) rfl rfl
    (Or.inl (by decide))

/-! ## C2 -/

/-- C2: on a policy that is already triggered, any number of successful
cycles whose counts still violate the bounds call no handler, perform no
fan-out, and leave `triggered`, `triggeredAt` and `violationID` as they were,
after every one of the cycles. -/
theorem still_violating_is_silent (L : Lib) (c : controller) (ts : List Tick) (p : Policy)
    (ht : p.triggered = true)
    (hts : ∀ t ∈ ts, ∃ sr, t.search = .ok sr ∧
      (sr.TotalHits < p.MinCount ∨ (p.MaxCount ≠ -1 ∧ sr.TotalHits > p.MaxCount))) :
    ∃ q rs, runCycles L c ts p = .ok (q, rs) ∧ rs.length = ts.length ∧
      q.triggered = p.triggered ∧ q.triggeredAt = p.triggeredAt ∧
      q.violationID = p.violationID ∧
      ∀ r ∈ rs, calls r.2 = [] ∧ fanouts r.2 = [] ∧ r.1.triggered = p.triggered ∧
        r.1.triggeredAt = p.triggeredAt ∧ r.1.violationID = p.violationID := by
  have hq : ∀ t ∈ ts, quietTick p t := by
    intro t hmem
    obtain ⟨sr, hs, hv⟩ := hts t hmem
    exact Or.inr ⟨sr, hs, (violated_iff p sr.TotalHits).mpr hv⟩
  obtain ⟨q, rs, hr, hlen, hqe, hall⟩ := runCycles_quiet L c ts p ht hq
  refine ⟨q, rs, hr, hlen, ?_, ?_, ?_, ?_⟩
  · rw [hqe]
  · rw [hqe]
  · rw [hqe]
  · intro r hmem
    obtain ⟨h1, h2, h3⟩ := hall r hmem
    refine ⟨h2, h3, ?_, ?_, ?_⟩ <;> rw [h1]

/-- A policy in violation since clock reading 7, with id "0a0b0c0d0e0f". -/
def triggeredPolicy : Policy :=
  { samplePolicy with triggered := true, triggeredAt := 7, violationID := "0a0b0c0d0e0f" }

theorem still_violating_is_silent_witness :
    ∃ q rs, runCycles sampleLib sampleController [hits 50 1000, hits 40 2000, hits 0 3000]
        triggeredPolicy = .ok (q, rs) ∧ rs.length = 3 ∧
      q.triggered = true ∧ q.triggeredAt = 7 ∧ q.violationID = "0a0b0c0d0e0f" ∧
      ∀ r ∈ rs, calls r.2 = [] ∧ fanouts r.2 = [] ∧ r.1.triggered = true ∧
        r.1.triggeredAt = 7 ∧ r.1.violationID = "0a0b0c0d0e0f" :=
  still_violating_is_silent sampleLib sampleController
    [hits 50 1000, hits 40 2000, hits 0 3000] triggeredPolicy rfl
    (by
      intro t ht
      simp only [List.mem_cons, List.mem_singleton, List.not_mem_nil, or_false] at ht
      rcases ht with rfl | rfl | rfl
      · exact ⟨_, rfl, Or.inl (by decide)⟩
      · exact ⟨_, rfl, Or.inl (by decide)⟩
      · exact ⟨_, rfl, Or.inl (by decide)⟩)

/-! ## C3 -/

/-- C3: a violation episode, that is a cycle that newly triggers the policy,
then any number of cycles that fail or still violate, then a compliant
successful cycle. The last cycle performs exactly one fan-out, with status
"resolved", every handler receives the id that the "violation" fan-out of the
first cycle passed, `triggered` is false afterwards and `violationID` still
holds that id. -/
theorem episode_resolves_with_same_id (L : Lib) (c : controller) (t0 tEnd : Tick)
    (mid : List Tick) (p : Policy) (sr0 srEnd : SearchResult)
    (hreg : registered c p) (hnt : p.triggered = false)
    (h0 : t0.search = .ok sr0)
    (hv0 : sr0.TotalHits < p.MinCount ∨ (p.MaxCount ≠ -1 ∧ sr0.TotalHits > p.MaxCount))
    (hmid : ∀ t ∈ mid, (∃ e, t.search = .error e) ∨ ∃ sr, t.search = .ok sr ∧
      (sr.TotalHits < p.MinCount ∨ (p.MaxCount ≠ -1 ∧ sr.TotalHits > p.MaxCount)))
    (hE : tEnd.search = .ok srEnd)
    (hcomp : p.MinCount ≤ srEnd.TotalHits ∧
      (p.MaxCount = -1 ∨ srEnd.TotalHits ≤ p.MaxCount)) :
    ∃ p1 ev1 rs p3 ev3,
      runCycles L c (t0 :: (mid ++ [tEnd])) p = .ok (p3, (p1, ev1) :: (rs ++ [(p3, ev3)])) ∧
      rs.length = mid.length ∧
      fanouts ev1 = [("violation", p1.violationID)] ∧
      calls ev1 = p.Handlers.map (fun h => (h, "violation", p1.violationID, p.Name)) ∧
      p1.triggered = true ∧
      (∀ r ∈ rs, fanouts r.2 = [] ∧ calls r.2 = []) ∧
      fanouts ev3 = [("resolved", p1.violationID)] ∧
      calls ev3 = p.Handlers.map (fun h => (h, "resolved", p1.violationID, p.Name)) ∧
      p3.triggered = false ∧ p3.violationID = p1.violationID := by
  obtain ⟨ev1, he1, hf1, hc1⟩ :=
    cycle_violation L c t0 p sr0 hreg h0 hnt ((violated_iff p sr0.TotalHits).mpr hv0)
  generalize hp1 : ({ p with
      lastRan := t0.nowRan, err := none, violationID := p.generateID L t0.nowID,
      triggered := true, triggeredAt := t0.nowTrig } : Policy) = p1 at he1
  have hq : ∀ t ∈ mid, quietTick p1 t := by
    intro t hmem
    rcases hmid t hmem with h | ⟨sr, hs, hv⟩
    · exact Or.inl h
    · refine Or.inr ⟨sr, hs, ?_⟩
      rw [← hp1]
      exact (violated_iff p sr.TotalHits).mpr hv
  have ht1 : p1.triggered = true := by rw [← hp1]
  obtain ⟨p2, rs, hr, hlen, hp2, hall⟩ := runCycles_quiet L c mid p1 ht1 hq
  have hreg2 : registered c p2 := by rw [hp2, ← hp1]; exact hreg
  have ht2 : p2.triggered = true := by rw [hp2]; exact ht1
  have hv2 : p2.violated srEnd.TotalHits = false := by
    rw [hp2, ← hp1]
    exact (violated_false_iff p srEnd.TotalHits).mpr hcomp
  obtain ⟨ev3, he3, hf3, hc3⟩ := cycle_resolved L c tEnd p2 srEnd hreg2 hE ht2 hv2
  have hid2 : p2.violationID = p1.violationID := by rw [hp2]
  have hH2 : p2.Handlers = p.Handlers := by rw [hp2, ← hp1]
  have hN2 : p2.Name = p.Name := by rw [hp2, ← hp1]
  have hlast : runCycles L c [tEnd] p2 = .ok (_, [(_, ev3)]) :=
    runCycles_cons_ok L c tEnd [] p2 _ _ ev3 [] he3 rfl
  refine ⟨p1, ev1, rs, _, ev3,
    runCycles_cons_ok L c t0 _ p p1 _ ev1 _ he1
      (runCycles_append_ok L c mid [tEnd] p1 p2 _ rs _ hr hlast),
    hlen, ?_, ?_, ht1, fun r hmem => ⟨(hall r hmem).2.2, (hall r hmem).2.1⟩, ?_, ?_, rfl, hid2⟩
  · rw [hf1, ← hp1]
  · rw [hc1, ← hp1]
  · rw [hf3, hid2]
  · rw [hc3, hid2, hH2, hN2]

theorem episode_resolves_with_same_id_witness :
    ∃ p1 ev1 rs p3 ev3,
      runCycles sampleLib sampleController
          (hits 50 1000 :: ([failed "timeout" 2000, hits 40 3000] ++ [hits 150 4000]))
          samplePolicy = .ok (p3, (p1, ev1) :: (rs ++ [(p3, ev3)])) ∧
      rs.length = [failed "timeout" 2000, hits 40 3000].length ∧
      fanouts ev1 = [("violation", p1.violationID)] ∧
      calls ev1 = samplePolicy.Handlers.map
        (fun h => (h, "violation", p1.violationID, samplePolicy.Name)) ∧
      p1.triggered = true ∧
      (∀ r ∈ rs, fanouts r.2 = [] ∧ calls r.2 = []) ∧
      fanouts ev3 = [("resolved", p1.violationID)] ∧
      calls ev3 = samplePolicy.Handlers.map
        (fun h => (h, "resolved", p1.violationID, samplePolicy.Name)) ∧
      p3.triggered = false ∧ p3.violationID = p1.violationID :=
  episode_resolves_with_same_id sampleLib sampleController (hits 50 1000) (hits 150 4000)
    [failed "timeout" 2000, hits 40 3000] samplePolicy
    { TotalHits := 50, TookInMillis := 3 } { TotalHits := 150, TookInMillis := 3 }
    (samplePolicy_registered _ rfl) rfl rfl (Or.inl (by decide))
    (by
      intro t ht
      simp only [List.mem_cons, List.mem_singleton, List.not_mem_nil, or_false] at ht
      rcases ht with rfl | rfl
      · exact Or.inl ⟨_, rfl⟩
      · exact Or.inr ⟨_, rfl, Or.inl (by decide)⟩)
    rfl ⟨by decide, Or.inl rfl⟩

/-! ## C4 -/

/-- C4: on a policy that is not triggered, a successful cycle whose count C
satisfies `MinCount <= C` and (`MaxCount = -1` or `C <= MaxCount`) keeps
`triggered` false, calls no handler and performs no fan-out; and when the
policy is what the start of the worker made of a policy configured with
`MinCount > 0` and `MaxCount = 0`, its `MaxCount` is -1 and every count
`C >= MinCount` is compliant in that sense. -/
theorem compliant_stays_untriggered (L : Lib) (c : controller) (t : Tick) (p : Policy)
    (sr : SearchResult) (hnt : p.triggered = false) (hs : t.search = .ok sr) :
    ((p.MinCount ≤ sr.TotalHits ∧ (p.MaxCount = -1 ∨ sr.TotalHits ≤ p.MaxCount)) →
      ∃ q evs, cycle L c t p = .ok (q, evs) ∧ q.triggered = false ∧ calls evs = [] ∧
        fanouts evs = []) ∧
    (∀ p0 ev0, policyWorkerStart p0 = .ok (p, ev0) → p0.MinCount > 0 → p0.MaxCount = 0 →
      p.MaxCount = -1 ∧ p.MinCount = p0.MinCount ∧
      (p0.MinCount ≤ sr.TotalHits →
        ∃ q evs, cycle L c t p = .ok (q, evs) ∧ q.triggered = false ∧ calls evs = [] ∧
          fanouts evs = [])) := by
  have key : (p.MinCount ≤ sr.TotalHits ∧ (p.MaxCount = -1 ∨ sr.TotalHits ≤ p.MaxCount)) →
      ∃ q evs, cycle L c t p = .ok (q, evs) ∧ q.triggered = false ∧ calls evs = [] ∧
        fanouts evs = [] := fun hc =>
    ⟨_, _, cycle_policy_ok L c t p sr hs hnt ((violated_false_iff p sr.TotalHits).mpr hc),
      hnt, rfl, rfl⟩
  refine ⟨key, ?_⟩
  intro p0 ev0 hstart hmin hmax
  have hp := policyWorkerStart_ok p0 p ev0 hstart
  have hM : p.MaxCount = -1 := by rw [hp]; simp [hmin, hmax]
  have hm : p.MinCount = p0.MinCount := by rw [hp]
  exact ⟨hM, hm, fun hC => key ⟨by rw [hm]; exact hC, Or.inl hM⟩⟩

/-- A policy configured with a minimum only. -/
def minOnlyPolicy : Policy :=
  { samplePolicy with MaxCount := 0, Index := "" }

theorem compliant_stays_untriggered_witness :
    (∃ q evs, cycle sampleLib sampleController (hits 150 1000) samplePolicy = .ok (q, evs) ∧
      q.triggered = false ∧ calls evs = [] ∧ fanouts evs = []) ∧
    policyWorkerStart minOnlyPolicy = .ok (samplePolicy,
      [Event.logf "set_default", Event.logf "set_default", Event.logf "start_worker"]) ∧
    samplePolicy.MaxCount = -1 :=
  have h := compliant_stays_untriggered sampleLib sampleController (hits 150 1000) samplePolicy
    { TotalHits := 150, TookInMillis := 3 } rfl rfl
  have hstart : policyWorkerStart minOnlyPolicy = .ok (samplePolicy,
      [Event.logf "set_default", Event.logf "set_default", Event.logf "start_worker"]) := by
    rfl
  ⟨h.1 ⟨by decide, Or.inl rfl⟩, hstart, (h.2 minOnlyPolicy _ hstart (by decide) rfl).1⟩

/-! ## C5 -/

/-- C5: a cycle whose search fails stores that error in `err`, calls no
handler, performs no fan-out and leaves `triggered`, `triggeredAt` and
`violationID` as they were; the following successful cycle ends with
`err = none` and with exactly the policy and the events that the same cycle
produces on the policy as it was before the failed cycle. -/
theorem failed_search_keeps_state (L : Lib) (c : controller) (tErr tNext : Tick)
    (p : Policy) (e : String) (sr : SearchResult) (hreg : registered c p)
    (he : tErr.search = .error e) (hs : tNext.search = .ok sr) :
    ∃ q evs, cycle L c tErr p = .ok (q, evs) ∧ q.err = some e ∧ calls evs = [] ∧
      fanouts evs = [] ∧ q.triggered = p.triggered ∧ q.triggeredAt = p.triggeredAt ∧
      q.violationID = p.violationID ∧
      ∃ q2 evs2, cycle L c tNext q = .ok (q2, evs2) ∧ cycle L c tNext p = .ok (q2, evs2) ∧
        q2.err = none ∧ q2.triggered = p.violated sr.TotalHits := by
  obtain ⟨q2, evs2, h2, hq2, -, -⟩ := cycle_success L c tNext p sr hreg hs
  refine ⟨_, _, cycle_error L c tErr p e he, rfl, rfl, rfl, rfl, rfl, rfl, q2, evs2, ?_, h2,
    ?_, ?_⟩
  · rw [← h2]
    rfl
  · rw [hq2]
  · rw [hq2]

theorem failed_search_keeps_state_witness :
    ∃ q evs, cycle sampleLib sampleController (failed "timeout" 2000) triggeredPolicy
        = .ok (q, evs) ∧ q.err = some "timeout" ∧ calls evs = [] ∧
      fanouts evs = [] ∧ q.triggered = triggeredPolicy.triggered ∧
      q.triggeredAt = triggeredPolicy.triggeredAt ∧
      q.violationID = triggeredPolicy.violationID ∧
      ∃ q2 evs2, cycle sampleLib sampleController (hits 150 3000) q = .ok (q2, evs2) ∧
        cycle sampleLib sampleController (hits 150 3000) triggeredPolicy = .ok (q2, evs2) ∧
        q2.err = none ∧ q2.triggered = triggeredPolicy.violated 150 :=
  failed_search_keeps_state sampleLib sampleController (failed "timeout" 2000)
    (hits 150 3000) triggeredPolicy "timeout" { TotalHits := 150, TookInMillis := 3 }
    (samplePolicy_registered _ rfl) rfl rfl

/-! ## C6 -/

/-- C6: whatever each handler call answers, a fan-out on a registered policy
ends normally and calls the handlers once each, in the order of the policy's
list, all with the same status, id and policy name; and the cycle around it
ends normally with a policy that does not depend on those answers. -/
theorem fanout_survives_handler_errors (L : Lib) (c : controller) (p : Policy)
    (status : String) (out : Nat → Outcome) (hreg : registered c p) :
    (∃ evs, p.runHandlers L c out status = .ok evs ∧
      calls evs = p.Handlers.map (fun h => (h, status, p.violationID, p.Name)) ∧
      fanouts evs = [(status, p.violationID)]) ∧
    (∀ t : Tick, ∃ q, ∀ out2 : Nat → Outcome,
      ∃ evs, cycle L c { t with out := out2 } p = .ok (q, evs)) :=
  ⟨runHandlers_ok L c out p status hreg, fun t => cycle_policy_indep L c t p hreg⟩

/-- A policy in violation that notifies the shell handler, pagerduty, and the
shell handler again. -/
def threeHandlerPolicy : Policy :=
  { triggeredPolicy with Handlers := ["shell", "pagerduty", "shell"] }

/-- The first handler call fails, the later ones succeed. -/
def firstFails : Nat → Outcome :=
  fun k => if k = 0 then { run := some "exit status 1", newRequest := none, roundTrip := .ok 200 }
    else allFine k

theorem threeHandlerPolicy_registered : registered sampleController threeHandlerPolicy := by
  intro h hh
  simp only [threeHandlerPolicy, List.mem_cons, List.mem_singleton, List.not_mem_nil,
    or_false] at hh
  rcases hh with rfl | rfl | rfl <;> rfl

theorem fanout_survives_handler_errors_witness :
    ((∃ evs, threeHandlerPolicy.runHandlers sampleLib sampleController firstFails "resolved"
        = .ok evs ∧
      calls evs = threeHandlerPolicy.Handlers.map
        (fun h => (h, "resolved", threeHandlerPolicy.violationID, threeHandlerPolicy.Name)) ∧
      fanouts evs = [("resolved", threeHandlerPolicy.violationID)]) ∧
    (∀ t : Tick, ∃ q, ∀ out2 : Nat → Outcome,
      ∃ evs, cycle sampleLib sampleController { t with out := out2 } threeHandlerPolicy
        = .ok (q, evs))) ∧
    threeHandlerPolicy.runHandlers sampleLib sampleController firstFails "resolved" = .ok
      [Event.fanout "resolved" "0a0b0c0d0e0f",
        Event.logf "trigger_handler",
        Event.handle "shell" "resolved" "0a0b0c0d0e0f" "apache hits in last hour"
          (Effect.exec "/bin/notify" ["resolved", "0a0b0c0d0e0f", "apache hits in last hour"])
          (some "exit status 1"),
        Event.logf "handler_error",
        Event.logf "trigger_handler",
        Event.handle "pagerduty" "resolved" "0a0b0c0d0e0f" "apache hits in last hour"
          (Effect.printed
            "pagerduty type=resolved id=0a0b0c0d0e0f apache hits in last hour\n")
          none,
        Event.logf "trigger_handler",
        Event.handle "shell" "resolved" "0a0b0c0d0e0f" "apache hits in last hour"
          (Effect.exec "/bin/notify" ["resolved", "0a0b0c0d0e0f", "apache hits in last hour"])
          none] :=
  ⟨fanout_survives_handler_errors sampleLib sampleController threeHandlerPolicy "resolved"
    firstFails threeHandlerPolicy_registered, by rfl⟩

/-! ## C7 -/

/-- C7: for every parameter map, `newHandler` fails with "apikey must be
defined" for pagerduty and hipchat without `apikey`, with "command must be
defined" for shell without `command`, with "room must be defined" for hipchat
with `apikey` but without `room`; with the required keys present it succeeds
with the given values, and the hipchat endpoint is "https://api.hipchat.com/"
when `endpoint` is absent and the supplied value otherwise. -/
theorem newHandler_required_parameters (config : GoMap String) :
    (config.get "apikey" = none →
      newHandler "pagerduty" config = .error "apikey must be defined" ∧
      newHandler "hipchat" config = .error "apikey must be defined") ∧
    (config.get "command" = none →
      newHandler "shell" config = .error "command must be defined") ∧
    (∀ apikey, config.get "apikey" = some apikey → config.get "room" = none →
      newHandler "hipchat" config = .error "room must be defined") ∧
    (∀ apikey, config.get "apikey" = some apikey →
      newHandler "pagerduty" config = .ok (handler.pagerduty apikey)) ∧
    (∀ command, config.get "command" = some command →
      newHandler "shell" config = .ok (handler.shell command)) ∧
    (∀ apikey room, config.get "apikey" = some apikey → config.get "room" = some room →
      (config.get "endpoint" = none →
        newHandler "hipchat" config
          = .ok (handler.hipChat apikey "https://api.hipchat.com/" room "")) ∧
      (∀ endpoint, config.get "endpoint" = some endpoint →
        newHandler "hipchat" config = .ok (handler.hipChat apikey endpoint room ""))) := by
  refine ⟨fun h => ⟨?_, ?_⟩, fun h => ?_, fun a h1 h2 => ?_, fun a h => ?_, fun a h => ?_,
    fun a r h1 h2 => ⟨fun h3 => ?_, fun e h3 => ?_⟩⟩
  · simp [newHandler, h]
  · simp [newHandler, h]
  · simp [newHandler, h]
  · simp [newHandler, h1, h2]
  · simp [newHandler, h]
  · simp [newHandler, h]
  · simp [newHandler, h1, h2, h3]
  · simp [newHandler, h1, h2, h3]

theorem newHandler_required_parameters_witness :
    newHandler "hipchat" [("room", "ops")] = .error "apikey must be defined" ∧
    newHandler "shell" [("apikey", "k")] = .error "command must be defined" ∧
    newHandler "hipchat" [("apikey", "k")] = .error "room must be defined" ∧
    newHandler "hipchat" [("apikey", "k"), ("room", "ops")]
      = .ok (handler.hipChat "k" "https://api.hipchat.com/" "ops" "") ∧
    newHandler "hipchat" [("apikey", "k"), ("room", "ops"), ("endpoint", "http://chat")]
      = .ok (handler.hipChat "k" "http://chat" "ops" "") :=
  ⟨((newHandler_required_parameters [("room", "ops")]).1 rfl).2,
    (newHandler_required_parameters [("apikey", "k")]).2.1 rfl,
    (newHandler_required_parameters [("apikey", "k")]).2.2.1 "k" rfl rfl,
    ((newHandler_required_parameters [("apikey", "k"), ("room", "ops")]).2.2.2.2.2
      "k" "ops" rfl rfl).1 rfl,
    ((newHandler_required_parameters
      [("apikey", "k"), ("room", "ops"), ("endpoint", "http://chat")]).2.2.2.2.2
      "k" "ops" rfl rfl).2 "http://chat" rfl⟩

/-! ## C8 -/

/-- A configuration whose only policy has a negative polling frequency. -/
def negativeFrequencyConfig : config :=
  { Address := "127.0.0.1:8888"
    ESURL := "http://localhost:9200/"
    Handlers := [("pagerduty", [("apikey", "abcd1234")])]
    Policies := [{ samplePolicy with FrequencySeconds := -5 }] }

/-- A policy whose frequency is exactly 0 makes the policy loop of
`validateConfig` fail. -/
theorem validatePolicies_rejects_zero (handlers : GoMap (GoMap String)) (ps : List Policy)
    (h : ∃ p ∈ ps, p.FrequencySeconds = 0) :
    ∃ e, validatePolicies handlers ps = .error e := by
  induction ps with
  | nil => simp at h
  | cons p ps ih =>
    by_cases h0 : p.FrequencySeconds = 0
    · simp only [validatePolicies, h0, if_true]
      exact ⟨_, rfl⟩
    · have h2 : ∃ q ∈ ps, q.FrequencySeconds = 0 := by
        obtain ⟨q, hq, hq0⟩ := h
        rcases List.mem_cons.mp hq with rfl | hq
        · exact absurd hq0 h0
        · exact ⟨q, hq, hq0⟩
      obtain ⟨e, he⟩ := ih h2
      cases hc : checkDefined handlers p.Name p.Handlers with
      | error e2 => exact ⟨e2, by simp only [validatePolicies, h0, if_false, hc]⟩
      | ok u => exact ⟨e, by simp only [validatePolicies, h0, if_false, hc, he]⟩

/-- The case of C8 that the code does cover: a decoded configuration with a
policy whose frequency is exactly 0 is rejected. -/
theorem validateConfig_rejects_zero (cfg : config)
    (h : ∃ p ∈ cfg.Policies, p.FrequencySeconds = 0) :
    ∃ e, validateConfig (.ok cfg) = .error e := by
  obtain ⟨e, he⟩ := validatePolicies_rejects_zero cfg.Handlers cfg.Policies h
  exact ⟨e, by simp only [validateConfig, he]⟩

/-- C8 at a failing input: a configuration with a policy whose
`FrequencySeconds` is -5 passes `validateConfig` unchanged, and the worker
started on that policy panics when it creates its ticker. -/
theorem validateConfig_accepts_negative_frequency :
    (∃ p ∈ negativeFrequencyConfig.Policies, p.FrequencySeconds ≤ 0) ∧
    validateConfig (.ok negativeFrequencyConfig) = .ok negativeFrequencyConfig ∧
    ∀ p ∈ negativeFrequencyConfig.Policies,
      policyWorkerStart p = .error "panic: non-positive interval for NewTicker" := by
  refine ⟨⟨_, List.mem_singleton.mpr rfl, by decide⟩, rfl, ?_⟩
  intro p hp
  rw [List.mem_singleton.mp hp]
  rfl

/-! ## C9 -/

/-- C9: over any finite sequence of successful cycles on a registered policy
that starts not triggered, `triggered` after each cycle is the value of the
violation condition at that cycle's count, and the total number of fan-outs
is the number of cycles at which that value differs from its value at the
cycle before (compliant before the first). -/
theorem transitions_match_predicate (L : Lib) (c : controller) (ts : List Tick)
    (srs : List SearchResult) (p : Policy) (hreg : registered c p)
    (hnt : p.triggered = false)
    (hts : ts.map (fun t => t.search) = srs.map (fun sr => Except.ok sr)) :
    ∃ q rs, runCycles L c ts p = .ok (q, rs) ∧
      rs.map (fun r => r.1.triggered) = srs.map (fun sr => p.violated sr.TotalHits) ∧
      (rs.map (fun r => (fanouts r.2).length)).sum
        = changes false (srs.map (fun sr => p.violated sr.TotalHits)) := by
  obtain ⟨q, rs, hr, h1, h2⟩ := runCycles_transitions L c ts srs p hreg hts
  exact ⟨q, rs, hr, h1, by rw [h2, hnt]⟩

/-- The scenario of the specification: counts 50, 50, 150, 150, 40. -/
def scenario : List Tick :=
  [hits 50 1000, hits 50 2000, hits 150 3000, hits 150 4000, hits 40 5000]

theorem transitions_match_predicate_witness :
    (∃ q rs, runCycles sampleLib sampleController scenario samplePolicy = .ok (q, rs) ∧
      rs.map (fun r => r.1.triggered) = [true, true, false, false, true] ∧
      (rs.map (fun r => (fanouts r.2).length)).sum = 3) ∧
    (runCycles sampleLib sampleController scenario samplePolicy).map
        (fun x => x.2.map (fun r => (r.1.triggered, (fanouts r.2).map Prod.fst)))
      = .ok [(true, ["violation"]), (true, []), (false, ["resolved"]), (false, []),
          (true, ["violation"])] :=
  ⟨transitions_match_predicate sampleLib sampleController scenario
      [{ TotalHits := 50, TookInMillis := 3 }, { TotalHits := 50, TookInMillis := 3 },
        { TotalHits := 150, TookInMillis := 3 }, { TotalHits := 150, TookInMillis := 3 },
        { TotalHits := 40, TookInMillis := 3 }]
      samplePolicy (samplePolicy_registered _ rfl) rfl rfl,
    by rfl⟩

/-! ## C10 -/

theorem checkDefined_ok {V : Type} (m : GoMap V) (name : String) (hs : List String)
    (h : checkDefined m name hs = .ok ()) : ∀ x ∈ hs, (m.get x).isSome = true := by
  induction hs with
  | nil => simp
  | cons a rest ih =>
    cases ha : m.get a with
    | none => simp [checkDefined, ha] at h
    | some v =>
      simp only [checkDefined, ha] at h
      intro x hx
      rcases List.mem_cons.mp hx with rfl | hx
      · rw [ha]; rfl
      · exact ih h x hx

theorem checkDefined_missing {V : Type} (m : GoMap V) (name : String) (hs : List String)
    (h : ∃ x ∈ hs, m.get x = none) : ∃ e, checkDefined m name hs = .error e := by
  induction hs with
  | nil => simp at h
  | cons a rest ih =>
    cases ha : m.get a with
    | none =>
      simp only [checkDefined, ha]
      exact ⟨_, rfl⟩
    | some v =>
      simp only [checkDefined, ha]
      apply ih
      obtain ⟨x, hx, hxn⟩ := h
      rcases List.mem_cons.mp hx with rfl | hx
      · rw [ha] at hxn; cases hxn
      · exact ⟨x, hx, hxn⟩

theorem checkPolicies_ok (m : GoMap handler) (ps : List Policy)
    (h : checkPolicies m ps = .ok ()) :
    ∀ p ∈ ps, ∀ x ∈ p.Handlers, (m.get x).isSome = true := by
  induction ps with
  | nil => simp
  | cons a rest ih =>
    cases ha : checkDefined m a.Name a.Handlers with
    | error e => simp [checkPolicies, ha] at h
    | ok u =>
      simp only [checkPolicies, ha] at h
      intro p hp
      rcases List.mem_cons.mp hp with rfl | hp
      · exact checkDefined_ok m _ _ ha
      · exact ih h p hp

theorem checkPolicies_missing (m : GoMap handler) (ps : List Policy)
    (h : ∃ p ∈ ps, ∃ x ∈ p.Handlers, m.get x = none) :
    ∃ e, checkPolicies m ps = .error e := by
  induction ps with
  | nil => simp at h
  | cons a rest ih =>
    cases ha : checkDefined m a.Name a.Handlers with
    | error e =>
      simp only [checkPolicies, ha]
      exact ⟨_, rfl⟩
    | ok u =>
      simp only [checkPolicies, ha]
      apply ih
      obtain ⟨p, hp, x, hx, hxn⟩ := h
      rcases List.mem_cons.mp hp with rfl | hp
      · have := checkDefined_ok m _ _ ha x hx
        rw [hxn] at this
        cases this
      · exact ⟨p, hp, x, hx, hxn⟩

theorem buildHandlers_fails (hs : GoMap (GoMap String)) (acc : GoMap handler)
    (h : ∃ ns ∈ hs, ∃ e, newHandler ns.1 ns.2 = .error e) :
    ∃ e, buildHandlers hs acc = .error e := by
  induction hs generalizing acc with
  | nil => simp at h
  | cons a rest ih =>
    obtain ⟨name, settings⟩ := a
    cases hn : newHandler name settings with
    | error e =>
      simp only [buildHandlers, hn]
      exact ⟨_, rfl⟩
    | ok n =>
      simp only [buildHandlers, hn]
      apply ih
      obtain ⟨ns, hmem, e, he⟩ := h
      rcases List.mem_cons.mp hmem with rfl | hmem
      · rw [hn] at he; cases he
      · exact ⟨ns, hmem, e, he⟩

/-- C10: `newController` fails when some configured handler cannot be
constructed, and when some policy names a handler that is not a key of the
registry built from the configuration; when it succeeds, every handler name
of every policy of the configuration is a key of the controller's registry,
every fan-out on such a policy ends normally, and so does every run of the
worker loop on a policy with that handler list. -/
theorem construction_guarantees_registry (NewClient : String → Except String Client)
    (cfg : config) :
    (∀ name settings e, (name, settings) ∈ cfg.Handlers →
      newHandler name settings = .error e →
      ∃ e2, newController NewClient cfg = .error e2) ∧
    (∀ reg, buildHandlers cfg.Handlers [] = .ok reg →
      ∀ p ∈ cfg.Policies, ∀ h ∈ p.Handlers, reg.get h = none →
      ∃ e2, newController NewClient cfg = .error e2) ∧
    (∀ c, newController NewClient cfg = .ok c →
      c.config = cfg ∧ buildHandlers cfg.Handlers [] = .ok c.handlers ∧
      ∀ p ∈ cfg.Policies, registered c p ∧
        (∀ L out status, ∃ evs, p.runHandlers L c out status = .ok evs) ∧
        (∀ p2 : Policy, p2.Handlers = p.Handlers →
          ∀ L ts, ∃ q rs, runCycles L c ts p2 = .ok (q, rs))) := by
  refine ⟨?_, ?_, ?_⟩
  · intro name settings e hmem he
    obtain ⟨e1, h1⟩ := buildHandlers_fails cfg.Handlers [] ⟨(name, settings), hmem, e, he⟩
    cases hc : NewClient cfg.ESURL with
    | error e0 => exact ⟨e0, by simp only [newController, hc]⟩
    | ok client => exact ⟨e1, by simp only [newController, hc, h1]⟩
  · intro reg hreg p hp h hh hnone
    obtain ⟨e1, h1⟩ := checkPolicies_missing reg cfg.Policies ⟨p, hp, h, hh, hnone⟩
    cases hc : NewClient cfg.ESURL with
    | error e0 => exact ⟨e0, by simp only [newController, hc]⟩
    | ok client => exact ⟨e1, by simp only [newController, hc, hreg, h1]⟩
  · intro c hc
    cases hcl : NewClient cfg.ESURL with
    | error e0 => simp [newController, hcl] at hc
    | ok client =>
      cases hb : buildHandlers cfg.Handlers [] with
      | error e1 => simp [newController, hcl, hb] at hc
      | ok reg =>
        cases hp : checkPolicies reg cfg.Policies with
        | error e2 => simp [newController, hcl, hb, hp] at hc
        | ok u =>
          simp only [newController, hcl, hb, hp, Except.ok.injEq] at hc
          subst hc
          refine ⟨rfl, rfl, fun p hmem => ?_⟩
          have hreg : registered
              { client := client, config := cfg, handlers := reg } p :=
            checkPolicies_ok reg cfg.Policies hp p hmem
          refine ⟨hreg, fun L out status => ?_, fun p2 h2 L ts => ?_⟩
          · obtain ⟨evs, he, -, -⟩ := runHandlers_ok L _ out p status hreg
            exact ⟨evs, he⟩
          · exact runCycles_total L _ ts p2 (by intro x hx; rw [h2] at hx; exact hreg x hx)

/-- A client constructor that always succeeds. -/
def sampleNewClient : String → Except String Client :=
  fun url => .ok { url := url }

/-- The configuration `testConfig` without its "stdout" handler. -/
def pagerdutyConfig : config :=
  { testConfig with Handlers := [("pagerduty", [("apikey", "abcd1234")])] }

/-- The configuration `testConfig` with a policy that names a shell handler
which the configuration does not define. -/
def danglingConfig : config :=
  { pagerdutyConfig with Policies := [{ samplePolicy with Handlers := ["pagerduty", "shell"] }] }

theorem construction_guarantees_registry_witness :
    (∃ e, newController sampleNewClient testConfig = .error e) ∧
    (∃ e, newController sampleNewClient danglingConfig = .error e) ∧
    newController sampleNewClient pagerdutyConfig = .ok
      { client := { url := "http://localhost:9200/" }
        config := pagerdutyConfig
        handlers := [("pagerduty", handler.pagerduty "abcd1234")] } ∧
    (∀ p ∈ pagerdutyConfig.Policies,
      registered
        { client := { url := "http://localhost:9200/" }
          config := pagerdutyConfig
          handlers := [("pagerduty", handler.pagerduty "abcd1234")] } p) :=
  ⟨(construction_guarantees_registry sampleNewClient testConfig).1 "stdout" [] _
      (List.mem_cons_self _ _) rfl,
    (construction_guarantees_registry sampleNewClient danglingConfig).2.1
      [("pagerduty", handler.pagerduty "abcd1234")] rfl _ (List.mem_singleton.mpr rfl)
      "shell" (List.mem_cons_of_mem _ (List.mem_singleton.mpr rfl)) rfl,
    rfl,
    fun p hp => (((construction_guarantees_registry sampleNewClient pagerdutyConfig).2.2 _ rfl).2.2
      p hp).1⟩

end Elasticwatch
